import Mathlib

/-!
Shallow embedding of the SimBricks main runner
(`symphony/runner/simbricks/runner/main_runner/__main__.py`).

Pure Lean translations of the event-callback machinery
(`EventCallback`, `BundleUpdatesEventCallback`,
`RunFragmentOutputArtifactCallback`), the callback router
(`MainRunner._apply_callbacks`), the run-registry sweep inside
`MainRunner._handel_events`, the run-event handlers
(`MainRunner._handle_run_events`, `MainRunner._start_run`,
`MainRunner._send_events_aggregate_updates`) and the configuration loader
(`MainRunner._load_configuration`), together with theorems checking the
specification's claims about them.

Python objects are modelled as follows: callback object identity becomes
a numeric id (`cid`), `set[EventCallback]` becomes a duplicate-free list
of ids, `dict` becomes an association list preserving insertion order,
a raised exception becomes `Option`/`Except`, and external calls
(backend RPCs, JSON parsers, executor plugins) become boolean oracles
recording whether the call succeeds, with their observable effects logged
in the model state.
-/

namespace MainRunnerModel

/-- Modelled from the spec: `ApiEventStatus` from `simbricks.schemas` (the
schemas module is not part of this repository's sources): the event
lifecycle states used by the runner. -/
inductive ApiEventStatus
  | PENDING
  | COMPLETED
  | ERROR
  | CANCELLED
deriving DecidableEq

/-- Modelled from the spec: `RunState` from `simbricks.schemas` (not part of
this repository's sources); the states are ordered so that any state
`≥ COMPLETED` (i.e. `COMPLETED`, `ERROR`, `CANCELLED`) is terminal. -/
inductive RunState
  | SPAWNED
  | STARTING
  | RUNNING
  | COMPLETED
  | ERROR
  | CANCELLED
deriving DecidableEq

/-- The ordinal of a `RunState`, in the spec's listed order. -/
def RunState.toNat : RunState → Nat
  | .SPAWNED => 0
  | .STARTING => 1
  | .RUNNING => 2
  | .COMPLETED => 3
  | .ERROR => 4
  | .CANCELLED => 5

/-- The `<` comparison on `RunState` used by the registry sweep
(`fragment_state < schemas.RunState.COMPLETED`). -/
def RunState.lt (a b : RunState) : Bool := a.toNat < b.toNat

/-! ## Handler tables

`FragmentRunner` owns four tables of type `dict[str, set[EventCallback]]`.
A callback set is modelled as a duplicate-free list of callback ids, a
table as an association list from event-type name to such a set. -/

/-- Models `set[EventCallback]` as a list of callback ids. -/
abbrev CallbackSet := List Nat

/-- Models one handler table `dict[str, set[EventCallback]]`. -/
abbrev Table := List (String × CallbackSet)

/-- Python `set.add`: inserts `cid` unless already present. -/
def setAdd (s : CallbackSet) (cid : Nat) : CallbackSet :=
  if cid ∈ s then s else s ++ [cid]

/-- Python `set.remove`: removes `cid`, or fails (`KeyError`, modelled as
`none`) when `cid` is not in the set. -/
def setRemove (s : CallbackSet) (cid : Nat) : Option CallbackSet :=
  if cid ∈ s then some (s.filter (fun x => x ≠ cid)) else none

/-- Python `dict` lookup `t[ety]` as an option. -/
def tableFind (t : Table) (ety : String) : Option CallbackSet :=
  match t with
  | [] => none
  | (k, s) :: rest => if k = ety then some s else tableFind rest ety

/-- `handler.setdefault(event_type, set()).add(self)` from
`EventCallback.__init__`: ensures the key exists and adds `cid` to its set. -/
def tableRegister (t : Table) (ety : String) (cid : Nat) : Table :=
  match t with
  | [] => [(ety, setAdd [] cid)]
  | (k, s) :: rest =>
      if k = ety then (k, setAdd s cid) :: rest
      else (k, s) :: tableRegister rest ety cid

/-- `handler[event_type].remove(self)` from `EventCallback.remove_callback`:
fails (`KeyError`, modelled as `none`) when the key is missing or the
callback is not in the set. -/
def tableRemoveCallback (t : Table) (ety : String) (cid : Nat) : Option Table :=
  match t with
  | [] => none
  | (k, s) :: rest =>
      if k = ety then (setRemove s cid).map (fun s2 => (k, s2) :: rest)
      else (tableRemoveCallback rest ety cid).map (fun r2 => (k, s) :: r2)

/-- `EventCallback.__init__`: register `cid` under `ety` in every table of
`handlers`. -/
def register_callback (handlers : List Table) (ety : String) (cid : Nat) :
    List Table :=
  handlers.map (fun t => tableRegister t ety cid)

/-- `EventCallback.remove_callback`: remove `cid` from every table of
`handlers`; any failing `set.remove` aborts the whole call (`none`). -/
def remove_callback (handlers : List Table) (ety : String) (cid : Nat) :
    Option (List Table) :=
  match handlers with
  | [] => some []
  | t :: rest => do
      let t2 ← tableRemoveCallback t ety cid
      let rest2 ← remove_callback rest ety cid
      some (t2 :: rest2)

/-- Whether `cid` is registered under `ety` in table `t`. -/
def setMem (t : Table) (ety : String) (cid : Nat) : Bool :=
  match tableFind t ety with
  | some s => cid ∈ s
  | none => false

/-- Whether `cid` is registered under `ety` in every table of `handlers`. -/
def registeredB (handlers : List Table) (ety : String) (cid : Nat) : Bool :=
  handlers.all (fun t => setMem t ety cid)

/-! ## `BundleUpdatesEventCallback` -/

/-- The mutable part of an update event
(`schemas.ApiEventUpdate_U`): its id and status. -/
structure ApiEventUpdateStub where
  id : Nat
  event_status : ApiEventStatus
deriving DecidableEq

/-- State of a `BundleUpdatesEventCallback`: the constructor arguments
`event_id`, `runners` (arity N) and the `update_event` stub, plus the
mutable counter `received_updates` and flag `success`. `cid` is the
callback's identity and `event_type` the key under which it registered. -/
structure BundleUpdatesEventCallback where
  cid : Nat
  event_type : String
  event_id : Nat
  runners : Nat
  received_updates : Nat
  success : Bool
  update_event : ApiEventUpdateStub
deriving DecidableEq

/-- Result of one `BundleUpdatesEventCallback.callback` invocation:
the returned bool, the new callback state, the (possibly updated) handler
tables, the bundles sent via `rc.update_events` (each bundle its event
list), and whether `remove_callback` ran. -/
structure BUECStep where
  matched : Bool
  cb : BundleUpdatesEventCallback
  handlers : List Table
  sent : List (List ApiEventUpdateStub)
  removed : Bool
deriving DecidableEq

/-- `BundleUpdatesEventCallback.callback`, acting on the handler tables the
callback registered in. `none` models a raised exception: the failed
`assert received_updates < runners`, or a `KeyError` out of
`remove_callback`. -/
def BundleUpdatesEventCallback.callback (c : BundleUpdatesEventCallback)
    (handlers : List Table) (event : ApiEventUpdateStub) : Option BUECStep :=
  if c.event_id ≠ event.id then
    some ⟨false, c, handlers, [], false⟩
  else if c.received_updates < c.runners then
    let c1 : BundleUpdatesEventCallback :=
      { c with
        received_updates := c.received_updates + 1,
        success :=
          if event.event_status ≠ ApiEventStatus.COMPLETED then false
          else c.success }
    if c1.received_updates = c1.runners then
      let status :=
        if c1.success then ApiEventStatus.COMPLETED else ApiEventStatus.ERROR
      let c2 : BundleUpdatesEventCallback :=
        { c1 with update_event := { c1.update_event with event_status := status } }
      match remove_callback handlers c2.event_type c2.cid with
      | some handlers2 => some ⟨true, c2, handlers2, [[c2.update_event]], true⟩
      | none => none
    else
      some ⟨true, c1, handlers, [], false⟩
  else
    none

/-- `BundleUpdatesEventCallback.passthrough` returns `False`. -/
def BundleUpdatesEventCallback.passthroughValue : Bool := false

/-- Feeding a list of update events one by one to a
`BundleUpdatesEventCallback`, collecting everything it sends. -/
def BundleUpdatesEventCallback.processAll (c : BundleUpdatesEventCallback)
    (handlers : List Table) :
    List ApiEventUpdateStub →
      Option (BundleUpdatesEventCallback × List Table × List (List ApiEventUpdateStub))
  | [] => some (c, handlers, [])
  | e :: rest => do
      let step ← c.callback handlers e
      let (c2, hs2, sents) ← step.cb.processAll step.handlers rest
      some (c2, hs2, step.sent ++ sents)

/-! ## Lemmas about handler tables -/

theorem setRemove_some_not_mem {s s2 : CallbackSet} {cid : Nat}
    (h : setRemove s cid = some s2) : cid ∉ s2 := by
  unfold setRemove at h
  split at h
  · cases h
    simp [List.mem_filter]
  · exact absurd h (by simp)

theorem tableRemoveCallback_some_notMem {t t2 : Table} {ety : String} {cid : Nat}
    (h : tableRemoveCallback t ety cid = some t2) : setMem t2 ety cid = false := by
  induction t generalizing t2 with
  | nil => simp [tableRemoveCallback] at h
  | cons p rest ih =>
    obtain ⟨k, s⟩ := p
    by_cases hk : k = ety
    · subst hk
      cases hsr : setRemove s cid with
      | none => simp [tableRemoveCallback, hsr] at h
      | some s2 =>
        simp only [tableRemoveCallback, hsr, if_true, eq_self_iff_true,
          Option.map_some', Option.some.injEq] at h
        have hnm : cid ∉ s2 := setRemove_some_not_mem hsr
        subst h
        simp [setMem, tableFind, hnm]
    · cases hrc : tableRemoveCallback rest ety cid with
      | none => simp [tableRemoveCallback, hk, hrc] at h
      | some r2 =>
        simp only [tableRemoveCallback, hk, if_false, if_neg hk, hrc,
          Option.map_some', Option.some.injEq] at h
        subst h
        simpa [setMem, tableFind, hk] using ih hrc

theorem tableRemoveCallback_isSome_of_setMem {t : Table} {ety : String} {cid : Nat}
    (h : setMem t ety cid = true) : (tableRemoveCallback t ety cid).isSome := by
  induction t with
  | nil => simp [setMem, tableFind] at h
  | cons p rest ih =>
    obtain ⟨k, s⟩ := p
    by_cases hk : k = ety
    · subst hk
      have hmem : cid ∈ s := by simpa [setMem, tableFind] using h
      simp [tableRemoveCallback, setRemove, hmem]
    · have h2 : setMem rest ety cid = true := by
        simpa [setMem, tableFind, hk] using h
      have hrec := ih h2
      simp only [tableRemoveCallback, if_neg hk]
      cases hrc : tableRemoveCallback rest ety cid with
      | none => rw [hrc] at hrec; simp at hrec
      | some r2 => simp

theorem tableRemoveCallback_none_of_notMem {t : Table} {ety : String} {cid : Nat}
    (h : setMem t ety cid = false) : tableRemoveCallback t ety cid = none := by
  induction t with
  | nil => simp [tableRemoveCallback]
  | cons p rest ih =>
    obtain ⟨k, s⟩ := p
    by_cases hk : k = ety
    · subst hk
      have hnm : cid ∉ s := by simpa [setMem, tableFind] using h
      simp [tableRemoveCallback, setRemove, hnm]
    · have h2 : setMem rest ety cid = false := by
        simpa [setMem, tableFind, hk] using h
      simp [tableRemoveCallback, if_neg hk, ih h2]

theorem remove_callback_some_spec {hs hs2 : List Table} {ety : String} {cid : Nat}
    (h : remove_callback hs ety cid = some hs2) :
    hs2.length = hs.length ∧ ∀ t2 ∈ hs2, setMem t2 ety cid = false := by
  induction hs generalizing hs2 with
  | nil =>
    simp only [remove_callback, Option.some.injEq] at h
    subst h
    simp
  | cons t rest ih =>
    cases htc : tableRemoveCallback t ety cid with
    | none => rw [remove_callback] at h; rw [htc] at h; simp at h
    | some t2 =>
      cases hrc : remove_callback rest ety cid with
      | none => rw [remove_callback] at h; rw [htc, hrc] at h; simp at h
      | some r2 =>
        have h2 : t2 :: r2 = hs2 := by
          rw [remove_callback] at h
          rw [htc, hrc] at h
          simpa using h
        subst h2
        obtain ⟨hlen, hmem⟩ := ih hrc
        refine ⟨by simp [hlen], ?_⟩
        intro x hx
        rcases List.mem_cons.mp hx with hx | hx
        · subst hx
          exact tableRemoveCallback_some_notMem htc
        · exact hmem x hx

theorem remove_callback_isSome_of_registered {hs : List Table} {ety : String} {cid : Nat}
    (h : registeredB hs ety cid = true) : (remove_callback hs ety cid).isSome := by
  induction hs with
  | nil => simp [remove_callback]
  | cons t rest ih =>
    simp only [registeredB, List.all_cons, Bool.and_eq_true] at h
    obtain ⟨h1, h2⟩ := h
    have ht := tableRemoveCallback_isSome_of_setMem h1
    have hr := ih (by simpa [registeredB] using h2)
    cases htc : tableRemoveCallback t ety cid with
    | none => rw [htc] at ht; simp at ht
    | some t2 =>
      cases hrc : remove_callback rest ety cid with
      | none => rw [hrc] at hr; simp at hr
      | some r2 => simp [remove_callback, htc, hrc]

/-! ## Claim C9: double removal -/

/-- C9 counterexample: after a callback registered in one handler table has
been removed once, calling `remove_callback` again fails (Python
`set.remove` raises `KeyError` on a missing element), refuting the claim
that a second removal is safe and does not fail. -/
theorem remove_callback_twice_counterexample :
    remove_callback (register_callback [([] : Table)] "T" 7) "T" 7 =
      some [[("T", [])]]
    ∧ remove_callback [[("T", ([] : CallbackSet))]] "T" 7 = none := by
  constructor <;> rfl

/-- C9 (amended): for a callback registered in one or more handler tables,
a first `remove_callback` that succeeds leaves the callback absent from
every table, so calling `remove_callback` a second time fails with a
`KeyError` (modelled as `none`); removal is not idempotent-safe. -/
theorem remove_callback_twice_fails (hs hs2 : List Table) (ety : String) (cid : Nat)
    (h1 : remove_callback hs ety cid = some hs2) (h2 : hs ≠ []) :
    remove_callback hs2 ety cid = none := by
  obtain ⟨hlen, hmem⟩ := remove_callback_some_spec h1
  cases hs2 with
  | nil =>
    cases hs with
    | nil => exact absurd rfl h2
    | cons a b => simp at hlen
  | cons t rest =>
    have hnone := tableRemoveCallback_none_of_notMem (hmem t (by simp))
    rw [remove_callback, hnone]
    rfl

/-- Witness for C9's amended theorem at a concrete registered table. -/
theorem remove_callback_twice_fails_witness :
    remove_callback [[("T", ([] : CallbackSet))]] "T" 7 = none :=
  remove_callback_twice_fails [[("T", [7])]] [[("T", [])]] "T" 7 rfl (by simp)

/-! ## Claim C1: `BundleUpdatesEventCallback.callback` behaviour -/

/-- The state of a `BundleUpdatesEventCallback` after one matched update:
`received_updates` incremented, `success` cleared unless the incoming
update completed (lines 89-91 of the source). -/
def BundleUpdatesEventCallback.afterMatch (c : BundleUpdatesEventCallback)
    (e : ApiEventUpdateStub) : BundleUpdatesEventCallback :=
  { c with
    received_updates := c.received_updates + 1,
    success :=
      if e.event_status ≠ ApiEventStatus.COMPLETED then false else c.success }

/-- The update event sent on the Nth match: the stored stub with its status
set from the accumulated `success` flag (lines 95-99 of the source). -/
def BundleUpdatesEventCallback.finalUpdate (c : BundleUpdatesEventCallback)
    (e : ApiEventUpdateStub) : ApiEventUpdateStub :=
  { c.update_event with
    event_status :=
      if (c.afterMatch e).success then ApiEventStatus.COMPLETED
      else ApiEventStatus.ERROR }

/-- **C1**: for a `BundleUpdatesEventCallback` of arity `runners = N` and
event id `event_id = E`:
a call with a non-matching id returns `False` and changes nothing;
a matching call below the Nth increments the counter, sends nothing and
removes nothing, and the counter stays `≤ N`;
exactly the Nth matching call sends one `update_events` bundle containing
only the stored update event and removes the callback from every handler
table it was registered in;
a matching call with the counter already at `N` fails the assertion; and
when the callback is registered in every table the removal succeeds. -/
theorem buec_callback_spec (c : BundleUpdatesEventCallback)
    (handlers handlers2 : List Table) (e : ApiEventUpdateStub) :
    (e.id ≠ c.event_id →
      c.callback handlers e = some ⟨false, c, handlers, [], false⟩)
    ∧ (e.id = c.event_id → c.received_updates + 1 < c.runners →
      c.callback handlers e = some ⟨true, c.afterMatch e, handlers, [], false⟩
      ∧ (c.afterMatch e).received_updates = c.received_updates + 1
      ∧ (c.afterMatch e).received_updates ≤ c.runners)
    ∧ (e.id = c.event_id → c.received_updates + 1 = c.runners →
      remove_callback handlers c.event_type c.cid = some handlers2 →
      c.callback handlers e =
        some ⟨true, { c.afterMatch e with update_event := c.finalUpdate e },
          handlers2, [[c.finalUpdate e]], true⟩
      ∧ (∀ t ∈ handlers2, setMem t c.event_type c.cid = false)
      ∧ (c.afterMatch e).received_updates ≤ c.runners)
    ∧ (e.id = c.event_id → c.runners ≤ c.received_updates →
      c.callback handlers e = none)
    ∧ (registeredB handlers c.event_type c.cid = true →
      (remove_callback handlers c.event_type c.cid).isSome) := by
  refine ⟨?_, ?_, ?_, ?_, ?_⟩
  · intro h
    have h2 : c.event_id ≠ e.id := fun hh => h hh.symm
    simp [BundleUpdatesEventCallback.callback, h2]
  · intro h1 h2
    have hne : ¬ (c.event_id ≠ e.id) := by simp [h1]
    have hlt : c.received_updates < c.runners := by omega
    have hne2 : ¬ (c.received_updates + 1 = c.runners) := by omega
    refine ⟨?_, by simp [BundleUpdatesEventCallback.afterMatch], ?_⟩
    · simp [BundleUpdatesEventCallback.callback,
        BundleUpdatesEventCallback.afterMatch, hne, hlt, hne2]
    · simp only [BundleUpdatesEventCallback.afterMatch]
      omega
  · intro h1 h2 h3
    have hne : ¬ (c.event_id ≠ e.id) := by simp [h1]
    have hlt : c.received_updates < c.runners := by omega
    obtain ⟨hlen, hmem⟩ := remove_callback_some_spec h3
    refine ⟨?_, hmem, ?_⟩
    · simp [BundleUpdatesEventCallback.callback,
        BundleUpdatesEventCallback.afterMatch,
        BundleUpdatesEventCallback.finalUpdate, hne, hlt, h2, h3]
    · simp only [BundleUpdatesEventCallback.afterMatch]
      omega
  · intro h1 h2
    have hne : ¬ (c.event_id ≠ e.id) := by simp [h1]
    have hge : ¬ (c.received_updates < c.runners) := by omega
    simp [BundleUpdatesEventCallback.callback, hne, hge]
  · exact fun h => remove_callback_isSome_of_registered h

/-- Witness for C1 at concrete inputs: arity 2 aggregator, a non-matching
call, the first matching call, the second (final) matching call, the
assertion failure, and a successful removal. -/
theorem buec_callback_spec_witness :
    BundleUpdatesEventCallback.callback ⟨7, "U", 3, 2, 0, true, ⟨3, ApiEventStatus.PENDING⟩⟩
        [[("U", [7])]] ⟨4, ApiEventStatus.COMPLETED⟩ =
      some ⟨false, ⟨7, "U", 3, 2, 0, true, ⟨3, ApiEventStatus.PENDING⟩⟩,
        [[("U", [7])]], [], false⟩
    ∧ BundleUpdatesEventCallback.callback ⟨7, "U", 3, 2, 0, true, ⟨3, ApiEventStatus.PENDING⟩⟩
        [[("U", [7])]] ⟨3, ApiEventStatus.COMPLETED⟩ =
      some ⟨true, ⟨7, "U", 3, 2, 1, true, ⟨3, ApiEventStatus.PENDING⟩⟩,
        [[("U", [7])]], [], false⟩
    ∧ BundleUpdatesEventCallback.callback ⟨7, "U", 3, 2, 1, true, ⟨3, ApiEventStatus.PENDING⟩⟩
        [[("U", [7])]] ⟨3, ApiEventStatus.ERROR⟩ =
      some ⟨true, ⟨7, "U", 3, 2, 2, false, ⟨3, ApiEventStatus.ERROR⟩⟩,
        [[("U", [])]], [[⟨3, ApiEventStatus.ERROR⟩]], true⟩
    ∧ BundleUpdatesEventCallback.callback ⟨7, "U", 3, 2, 2, false, ⟨3, ApiEventStatus.ERROR⟩⟩
        [[("U", [7])]] ⟨3, ApiEventStatus.COMPLETED⟩ = none
    ∧ (remove_callback [[("U", [7])]] "U" 7).isSome := by
  refine ⟨?_, ?_, ?_, ?_, ?_⟩
  · exact (buec_callback_spec ⟨7, "U", 3, 2, 0, true, ⟨3, ApiEventStatus.PENDING⟩⟩
      [[("U", [7])]] [] ⟨4, ApiEventStatus.COMPLETED⟩).1 (by decide)
  · exact ((buec_callback_spec ⟨7, "U", 3, 2, 0, true, ⟨3, ApiEventStatus.PENDING⟩⟩
      [[("U", [7])]] [] ⟨3, ApiEventStatus.COMPLETED⟩).2.1 rfl (by decide)).1
  · exact ((buec_callback_spec ⟨7, "U", 3, 2, 1, true, ⟨3, ApiEventStatus.PENDING⟩⟩
      [[("U", [7])]] [[("U", [])]] ⟨3, ApiEventStatus.ERROR⟩).2.2.1 rfl rfl rfl).1
  · exact (buec_callback_spec ⟨7, "U", 3, 2, 2, false, ⟨3, ApiEventStatus.ERROR⟩⟩
      [[("U", [7])]] [] ⟨3, ApiEventStatus.COMPLETED⟩).2.2.2.1 rfl (by decide)
  · exact (buec_callback_spec ⟨7, "U", 3, 2, 0, true, ⟨3, ApiEventStatus.PENDING⟩⟩
      [[("U", [7])]] [] ⟨3, ApiEventStatus.COMPLETED⟩).2.2.2.2 (by decide)

/-! ## Claim C2: status composition -/

/-- Feeding a `BundleUpdatesEventCallback` exactly the updates that fill its
arity sends one bundle with one update event, whose status is `COMPLETED`
iff the `success` flag was set and every fed update completed. -/
theorem processAll_sent (events : List ApiEventUpdateStub) :
    ∀ (c : BundleUpdatesEventCallback) (handlers : List Table),
      (∀ e ∈ events, e.id = c.event_id) →
      c.received_updates + events.length = c.runners →
      0 < events.length →
      registeredB handlers c.event_type c.cid = true →
      (c.processAll handlers events).map (fun r => r.2.2) =
        some [[{ c.update_event with
          event_status :=
            if c.success &&
                events.all (fun e => decide (e.event_status = ApiEventStatus.COMPLETED))
            then ApiEventStatus.COMPLETED else ApiEventStatus.ERROR }]] := by
  induction events with
  | nil => intro c handlers _ _ hpos _; simp at hpos
  | cons e rest ih =>
    intro c handlers hids hsum hpos hreg
    have hid : e.id = c.event_id := hids e (by simp)
    have hne : ¬ (c.event_id ≠ e.id) := by simp [hid]
    have hlt : c.received_updates < c.runners := by
      simp only [List.length_cons] at hsum; omega
    by_cases hlast : rest = []
    · subst hlast
      have heq : c.received_updates + 1 = c.runners := by
        simp only [List.length_cons, List.length_nil] at hsum; omega
      have hrs := remove_callback_isSome_of_registered hreg
      cases hrc : remove_callback handlers c.event_type c.cid with
      | none => rw [hrc] at hrs; simp at hrs
      | some hs2 =>
        simp only [BundleUpdatesEventCallback.processAll,
          BundleUpdatesEventCallback.callback]
        rw [if_neg hne]
        rw [if_pos hlt]
        simp only [heq, if_pos, hrc]
        by_cases hok : e.event_status = ApiEventStatus.COMPLETED
        · simp [BundleUpdatesEventCallback.processAll, hok, heq]
        · simp [BundleUpdatesEventCallback.processAll, hok, heq]
    · have hlen : 0 < rest.length := by
        cases rest with
        | nil => exact absurd rfl hlast
        | cons a b => simp
      have hne2 : ¬ (c.received_updates + 1 = c.runners) := by
        simp only [List.length_cons] at hsum; omega
      have ihx := ih (c.afterMatch e) handlers
        (fun e2 he2 => by
          simpa [BundleUpdatesEventCallback.afterMatch] using hids e2 (by simp [he2]))
        (by
          simp only [BundleUpdatesEventCallback.afterMatch, List.length_cons] at hsum ⊢
          omega)
        hlen
        (by simpa [BundleUpdatesEventCallback.afterMatch] using hreg)
      cases hpa : (c.afterMatch e).processAll handlers rest with
      | none => rw [hpa] at ihx; simp at ihx
      | some r =>
        obtain ⟨r1, r2, r3⟩ := r
        rw [hpa] at ihx
        simp only [Option.map_some', Option.some.injEq] at ihx
        have hpa2 : BundleUpdatesEventCallback.processAll
            { c with
              received_updates := c.received_updates + 1,
              success :=
                if e.event_status ≠ ApiEventStatus.COMPLETED then false
                else c.success } handlers rest = some (r1, r2, r3) := by
          simpa [BundleUpdatesEventCallback.afterMatch] using hpa
        simp only [BundleUpdatesEventCallback.processAll,
          BundleUpdatesEventCallback.callback]
        rw [if_neg hne]
        rw [if_pos hlt]
        simp only [if_neg hne2, Option.bind_eq_bind, Option.some_bind, hpa2]
        simp only [Option.map_some', Option.some.injEq, List.nil_append]
        rw [ihx]
        by_cases hok : e.event_status = ApiEventStatus.COMPLETED
        · simp [BundleUpdatesEventCallback.afterMatch, hok, List.all_cons]
        · simp [BundleUpdatesEventCallback.afterMatch, hok, List.all_cons]

/-- **C2**: for a `BundleUpdatesEventCallback` of arity `N` fed exactly `N`
matching updates from its initial state (`received_updates = 0`,
`success = True`), the aggregated update event sent on the Nth match has
status `COMPLETED` iff every one of the `N` input updates had status
`COMPLETED`, and `ERROR` otherwise. -/
theorem buec_status_composition (cid : Nat) (ety : String) (E N : Nat)
    (stub : ApiEventUpdateStub) (handlers : List Table)
    (events : List ApiEventUpdateStub)
    (hN : events.length = N) (hpos : 0 < N)
    (hids : ∀ e ∈ events, e.id = E)
    (hreg : registeredB handlers ety cid = true) :
    (BundleUpdatesEventCallback.processAll ⟨cid, ety, E, N, 0, true, stub⟩
        handlers events).map (fun r => r.2.2) =
      some [[{ stub with
        event_status :=
          if events.all (fun e => decide (e.event_status = ApiEventStatus.COMPLETED))
          then ApiEventStatus.COMPLETED else ApiEventStatus.ERROR }]] := by
  have h := processAll_sent events ⟨cid, ety, E, N, 0, true, stub⟩ handlers
    hids (by simpa using hN) (by omega) hreg
  simpa using h

/-- Witness for C2: a two-fragment aggregator receiving one `COMPLETED` and
one `ERROR` update sends a single `ERROR` update; receiving two
`COMPLETED` updates sends a single `COMPLETED` update. -/
theorem buec_status_composition_witness :
    (BundleUpdatesEventCallback.processAll ⟨7, "U", 3, 2, 0, true, ⟨3, ApiEventStatus.PENDING⟩⟩
        [[("U", [7])]]
        [⟨3, ApiEventStatus.COMPLETED⟩, ⟨3, ApiEventStatus.ERROR⟩]).map (fun r => r.2.2) =
      some [[⟨3, ApiEventStatus.ERROR⟩]]
    ∧ (BundleUpdatesEventCallback.processAll ⟨7, "U", 3, 2, 0, true, ⟨3, ApiEventStatus.PENDING⟩⟩
        [[("U", [7])]]
        [⟨3, ApiEventStatus.COMPLETED⟩, ⟨3, ApiEventStatus.COMPLETED⟩]).map (fun r => r.2.2) =
      some [[⟨3, ApiEventStatus.COMPLETED⟩]] := by
  constructor
  · have h := buec_status_composition 7 "U" 3 2 ⟨3, ApiEventStatus.PENDING⟩
      [[("U", [7])]] [⟨3, ApiEventStatus.COMPLETED⟩, ⟨3, ApiEventStatus.ERROR⟩]
      rfl (by decide) (by decide) (by decide)
    simpa using h
  · have h := buec_status_composition 7 "U" 3 2 ⟨3, ApiEventStatus.PENDING⟩
      [[("U", [7])]] [⟨3, ApiEventStatus.COMPLETED⟩, ⟨3, ApiEventStatus.COMPLETED⟩]
      rfl (by decide) (by decide) (by decide)
    simpa using h

/-! ## Claim C3: `MainRunner._apply_callbacks`

The router is generic in the event payload type `ε` and a world state `σ`
threaded through the callbacks (Python callbacks mutate shared state).
A callback's `call` returns `none` when the Python coroutine raises. -/

/-- An `EventCallback` as seen by the router: the `callback(event)`
coroutine (state-passing, `none` = raised exception) and the
`passthrough()` flag. -/
structure GCallback (σ ε : Type) where
  call : σ → ε → Option (σ × Bool)
  passthrough : Bool

/-- The inner loop of `_apply_callbacks` for one event: iterate the
callbacks in order; the first one whose `callback(event)` returns true
short-circuits the loop, and the event goes to the passthrough bundle iff
either no callback returned true (the `for`-`else` branch) or that first
matching callback has `passthrough()` true. The returned bool says whether
the event is added to the passthrough bundle. -/
def applyOne {σ ε : Type} : List (GCallback σ ε) → σ → ε → Option (σ × Bool)
  | [], s, _ => some (s, true)
  | cb :: rest, s, e =>
    match cb.call s e with
    | none => none
    | some (s1, true) => some (s1, cb.passthrough)
    | some (s1, false) => applyOne rest s1 e

/-- The per-event-type loop of `_apply_callbacks`: apply `applyOne` to each
event in order, collecting the events that go to the passthrough bundle. -/
def applyEvents {σ ε : Type} (cbs : List (GCallback σ ε)) :
    σ → List ε → Option (σ × List ε)
  | s, [] => some (s, [])
  | s, e :: rest => do
    let (s1, keep) ← applyOne cbs s e
    let (s2, out) ← applyEvents cbs s1 rest
    some (s2, if keep then e :: out else out)

/-- `dict` lookup in the callback table (`event_type not in callbacks`). -/
def lookupCBs {σ ε : Type} (callbacks : List (String × List (GCallback σ ε)))
    (ty : String) : Option (List (GCallback σ ε)) :=
  match callbacks with
  | [] => none
  | (k, cbs) :: rest => if k = ty then some cbs else lookupCBs rest ty

/-- `MainRunner._apply_callbacks`: for each event type of the bundle, events
whose type has no entry in the callback table pass through unchanged;
otherwise each event runs through the callback chain. The result pairs
each event type with its passthrough events (an empty list standing for a
key absent from the Python passthrough bundle). -/
def apply_callbacks {σ ε : Type}
    (callbacks : List (String × List (GCallback σ ε))) :
    σ → List (String × List ε) → Option (σ × List (String × List ε))
  | s, [] => some (s, [])
  | s, (ty, events) :: rest =>
    match lookupCBs callbacks ty with
    | none => do
      let (s2, out) ← apply_callbacks callbacks s rest
      some (s2, (ty, events) :: out)
    | some cbs => do
      let (s1, keep) ← applyEvents cbs s events
      let (s2, out) ← apply_callbacks callbacks s1 rest
      some (s2, (ty, keep) :: out)

/-- Threading the world state through a run of callbacks that all return
false without raising: `some s2` means every call succeeded and returned
false, leaving state `s2`. -/
def threadNoMatch {σ ε : Type} : List (GCallback σ ε) → σ → ε → Option σ
  | [], s, _ => some s
  | cb :: rest, s, e =>
    match cb.call s e with
    | some (s1, false) => threadNoMatch rest s1 e
    | _ => none

theorem applyOne_of_threadNoMatch {σ ε : Type} {e : ε} :
    ∀ (cbs : List (GCallback σ ε)) (s s0 : σ),
      threadNoMatch cbs s e = some s0 → applyOne cbs s e = some (s0, true) := by
  intro cbs
  induction cbs with
  | nil =>
    intro s s0 h
    simp only [threadNoMatch, Option.some.injEq] at h
    simp [applyOne, h]
  | cons cb rest ih =>
    intro s s0 h
    cases hc : cb.call s e with
    | none => rw [threadNoMatch, hc] at h; simp at h
    | some p =>
      obtain ⟨s1, b⟩ := p
      cases b with
      | true => rw [threadNoMatch, hc] at h; simp at h
      | false =>
        rw [threadNoMatch, hc] at h
        simp only [applyOne, hc]
        exact ih s1 s0 h

theorem applyOne_first_match {σ ε : Type} {e : ε} (cb : GCallback σ ε)
    (post : List (GCallback σ ε)) :
    ∀ (pre : List (GCallback σ ε)) (s s0 s1 : σ),
      threadNoMatch pre s e = some s0 → cb.call s0 e = some (s1, true) →
      applyOne (pre ++ cb :: post) s e = some (s1, cb.passthrough) := by
  intro pre
  induction pre with
  | nil =>
    intro s s0 s1 h hc
    simp only [threadNoMatch, Option.some.injEq] at h
    subst h
    simp [applyOne, hc]
  | cons p rest ih =>
    intro s s0 s1 h hc
    cases hp : p.call s e with
    | none => rw [threadNoMatch, hp] at h; simp at h
    | some q =>
      obtain ⟨t, b⟩ := q
      cases b with
      | true => rw [threadNoMatch, hp] at h; simp at h
      | false =>
        rw [threadNoMatch, hp] at h
        simp only [List.cons_append, applyOne, hp]
        exact ih t s0 s1 h hc

theorem applyOne_inv {σ ε : Type} {e : ε} :
    ∀ (cbs : List (GCallback σ ε)) (s sr : σ) (b : Bool),
      applyOne cbs s e = some (sr, b) →
      (threadNoMatch cbs s e = some sr ∧ b = true)
      ∨ ∃ pre cb post t0 t1, cbs = pre ++ cb :: post
          ∧ threadNoMatch pre s e = some t0
          ∧ cb.call t0 e = some (t1, true)
          ∧ sr = t1 ∧ b = cb.passthrough := by
  intro cbs
  induction cbs with
  | nil =>
    intro s sr b h
    simp only [applyOne, Option.some.injEq, Prod.mk.injEq] at h
    exact Or.inl ⟨by simp [threadNoMatch, h.1], h.2.symm⟩
  | cons cb rest ih =>
    intro s sr b h
    cases hc : cb.call s e with
    | none => rw [applyOne, hc] at h; simp at h
    | some p =>
      obtain ⟨t, bb⟩ := p
      cases bb with
      | true =>
        rw [applyOne, hc] at h
        simp only [Option.some.injEq, Prod.mk.injEq] at h
        refine Or.inr ⟨[], cb, rest, s, t, by simp, by simp [threadNoMatch], hc,
          h.1.symm, h.2.symm⟩
      | false =>
        rw [applyOne, hc] at h
        rcases ih t sr b h with ⟨h1, h2⟩ | ⟨pre, cb2, post, t0, t1, hsplit, hth, hcall, hsr, hb⟩
        · exact Or.inl ⟨by rw [threadNoMatch, hc]; exact h1, h2⟩
        · refine Or.inr ⟨cb :: pre, cb2, post, t0, t1, by simp [hsplit], ?_, hcall, hsr, hb⟩
          rw [threadNoMatch, hc]
          exact hth

/-- **C3**: in `_apply_callbacks`, an event is placed in the returned
passthrough bundle iff either no callback of its event-type chain returned
true (including a type with no table entry, whose events all pass through)
or the first callback returning true has `passthrough()` true; iteration
stops at the first callback returning true (callbacks after it, here
`post`, are never consulted). -/
theorem apply_callbacks_passthrough_spec {σ ε : Type}
    (callbacks : List (String × List (GCallback σ ε)))
    (ty : String) (events : List ε) (bundleRest : List (String × List ε))
    (cbs pre post : List (GCallback σ ε)) (cb : GCallback σ ε)
    (s s0 s1 : σ) (e : ε) :
    (lookupCBs callbacks ty = none →
      ∀ s2 out, apply_callbacks callbacks s bundleRest = some (s2, out) →
        apply_callbacks callbacks s ((ty, events) :: bundleRest) =
          some (s2, (ty, events) :: out))
    ∧ (threadNoMatch cbs s e = some s0 →
        applyOne cbs s e = some (s0, true))
    ∧ (threadNoMatch pre s e = some s0 →
        cb.call s0 e = some (s1, true) →
        applyOne (pre ++ cb :: post) s e = some (s1, cb.passthrough))
    ∧ (∀ sr b, applyOne cbs s e = some (sr, b) →
        (threadNoMatch cbs s e = some sr ∧ b = true)
        ∨ ∃ pre2 cb2 post2 t0 t1, cbs = pre2 ++ cb2 :: post2
            ∧ threadNoMatch pre2 s e = some t0
            ∧ cb2.call t0 e = some (t1, true)
            ∧ sr = t1 ∧ b = cb2.passthrough)
    ∧ (∀ evs sr out, applyEvents cbs s (e :: evs) = some (sr, out) →
        ∃ t1 b out2, applyOne cbs s e = some (t1, b)
          ∧ applyEvents cbs t1 evs = some (sr, out2)
          ∧ out = if b then e :: out2 else out2) := by
  refine ⟨?_, ?_, ?_, ?_, ?_⟩
  · intro h s2 out h2
    simp [apply_callbacks, h, h2]
  · exact applyOne_of_threadNoMatch cbs s s0
  · exact applyOne_first_match cb post pre s s0 s1
  · exact fun sr b h => applyOne_inv cbs s sr b h
  · intro evs sr out h
    cases ha : applyOne cbs s e with
    | none => rw [applyEvents, ha] at h; simp at h
    | some p =>
      obtain ⟨t1, b⟩ := p
      rw [applyEvents, ha] at h
      simp only [Option.bind_eq_bind, Option.some_bind] at h
      cases he : applyEvents cbs t1 evs with
      | none => rw [he] at h; simp at h
      | some q =>
        obtain ⟨t2, out2⟩ := q
        rw [he] at h
        simp only [Option.some_bind, Option.some.injEq, Prod.mk.injEq] at h
        exact ⟨t1, b, out2, rfl, by rw [he, h.1], h.2.symm⟩

/-- A test callback that matches exactly the event `5`, counting calls in
the state, with `passthrough()` false. -/
def cbTestA : GCallback Nat Nat := ⟨fun s e => some (s + 1, decide (e = 5)), false⟩

/-- A test callback that matches every event, with `passthrough()` true. -/
def cbTestB : GCallback Nat Nat := ⟨fun s _ => some (s * 10, true), true⟩

/-- A test callback whose coroutine always raises. -/
def cbTestC : GCallback Nat Nat := ⟨fun _ _ => none, false⟩

/-- Witness for C3 at concrete inputs: an absent event type passes its
events through; a no-match chain passes the event through; the first
matching callback decides and the raising callback after it is never
consulted; a successful chain run decomposes as the theorem states; and a
matched event with `passthrough()` false is dropped from the bundle. -/
theorem apply_callbacks_passthrough_spec_witness :
    apply_callbacks [("K", [cbTestA])] 0 [("T", [1, 2])] =
      some (0, [("T", [1, 2])])
    ∧ applyOne [cbTestA] 0 3 = some (1, true)
    ∧ applyOne [cbTestA, cbTestB, cbTestC] 0 3 = some (10, true)
    ∧ ((threadNoMatch [cbTestA] 0 3 = some 1 ∧ true = true)
        ∨ ∃ pre2 cb2 post2 t0 t1, [cbTestA] = pre2 ++ cb2 :: post2
            ∧ threadNoMatch pre2 0 3 = some t0
            ∧ cb2.call t0 3 = some (t1, true)
            ∧ 1 = t1 ∧ true = cb2.passthrough)
    ∧ (∃ t1 b out2, applyOne [cbTestA] 0 5 = some (t1, b)
        ∧ applyEvents [cbTestA] t1 [3] = some (2, out2)
        ∧ [3] = if b then 5 :: out2 else out2) := by
  refine ⟨?_, ?_, ?_, ?_, ?_⟩
  · exact (apply_callbacks_passthrough_spec [("K", [cbTestA])] "T" [1, 2] []
      [] [] [] cbTestA 0 0 0 0).1 rfl 0 [] rfl
  · exact (apply_callbacks_passthrough_spec [] "T" [] [] [cbTestA] [] []
      cbTestA 0 1 0 3).2.1 rfl
  · exact (apply_callbacks_passthrough_spec [] "T" [] [] [] [cbTestA] [cbTestC]
      cbTestB 0 1 10 3).2.2.1 rfl rfl
  · exact (apply_callbacks_passthrough_spec [] "T" [] [] [cbTestA] [] []
      cbTestA 0 0 0 3).2.2.2.1 1 true rfl
  · exact (apply_callbacks_passthrough_spec [] "T" [] [] [cbTestA] [] []
      cbTestA 0 0 0 5).2.2.2.2 [3] 2 [3] rfl

/-! ## Claim C6: `RunFragmentOutputArtifactCallback` -/

/-- Modelled from the spec: the value of one character of the standard
base64 alphabet used by Python's `base64.b64decode` (external standard
library, not part of this repository's sources). -/
def b64val (c : Char) : Option Nat :=
  if 'A' ≤ c ∧ c ≤ 'Z' then some (c.toNat - 'A'.toNat)
  else if 'a' ≤ c ∧ c ≤ 'z' then some (c.toNat - 'a'.toNat + 26)
  else if '0' ≤ c ∧ c ≤ '9' then some (c.toNat - '0'.toNat + 52)
  else if c = '+' then some 62
  else if c = '/' then some 63
  else none

/-- Whether a character survives `b64decode`'s lenient input scan
(alphabet characters and the padding character). -/
def b64isAlphabetOrPad (c : Char) : Bool := (b64val c).isSome || c = '='

/-- Modelled from the spec: the quad-wise core of Python's
`base64.b64decode`: each group of four alphabet characters yields three
bytes, a final group padded with one or two `=` yields two or one; any
other shape is incorrect padding and raises (`none`). -/
def b64decodeQuads : List Char → Option (List Nat)
  | [] => some []
  | c0 :: c1 :: c2 :: c3 :: rest => do
      let v0 ← b64val c0
      let v1 ← b64val c1
      if c2 = '=' then
        if c3 = '=' ∧ rest = [] then
          some [v0 * 4 + v1 / 16]
        else none
      else do
        let v2 ← b64val c2
        if c3 = '=' then
          if rest = [] then
            some [v0 * 4 + v1 / 16, (v1 % 16) * 16 + v2 / 4]
          else none
        else do
          let v3 ← b64val c3
          let bytes ← b64decodeQuads rest
          some ([v0 * 4 + v1 / 16, (v1 % 16) * 16 + v2 / 4,
                 (v2 % 4) * 64 + v3] ++ bytes)
  | _ => none

/-- Modelled from the spec: Python's `base64.b64decode` with
`validate=False` (the default used at line 136 of the source): characters
outside the alphabet are discarded before decoding; the result is the
decoded byte list, or `none` when the padding is incorrect. -/
def b64decode (s : String) : Option (List Nat) :=
  b64decodeQuads (s.data.filter b64isAlphabetOrPad)

/-- The fields of `schemas.ApiRunFragmentOutputArtifactEventCreate` the
artifact callback reads. -/
structure ApiRunFragmentOutputArtifactEventCreate where
  run_id : Nat
  run_fragment_id : Nat
  output_artifact : String
  output_artifact_name : String
deriving DecidableEq

/-- The world visible to `RunFragmentOutputArtifactCallback`: the log of
`set_run_fragment_output_artifact_raw(run_fragment_id, stream)` calls,
each recording the fragment id, the stream's `name` and the raw bytes. -/
structure ArtifactWorld where
  uploads : List (Nat × String × List Nat)
deriving DecidableEq

/-- `RunFragmentOutputArtifactCallback.callback`: a non-matching `run_id`
returns `False` and does nothing; a match base64-decodes
`output_artifact`, uploads the bytes under `output_artifact_name`, and
returns `True`. `none` models the `binascii` error raised on a payload
with incorrect padding. -/
def artifactCallbackFn (run_id : Nat) (w : ArtifactWorld)
    (e : ApiRunFragmentOutputArtifactEventCreate) : Option (ArtifactWorld × Bool) :=
  if e.run_id ≠ run_id then some (w, false)
  else
    match b64decode e.output_artifact with
    | some bytes =>
        some (⟨w.uploads ++ [(e.run_fragment_id, e.output_artifact_name, bytes)]⟩, true)
    | none => none

/-- `RunFragmentOutputArtifactCallback` as a router callback:
`passthrough()` returns `False`. -/
def artifactGCallback (run_id : Nat) :
    GCallback ArtifactWorld ApiRunFragmentOutputArtifactEventCreate :=
  ⟨fun w e => artifactCallbackFn run_id w e, false⟩

/-- **C6**: on a matching `ApiRunFragmentOutputArtifactEventCreate` (its
`run_id` equals the callback's) whose payload decodes, the callback
uploads exactly the base64-decoded bytes of `output_artifact` under the
stream name `output_artifact_name` and returns `True`; its
`passthrough()` is `False`, so applying the callback chain leaves the
event out of the passthrough bundle and it is never forwarded to the
backend through `create_events`. -/
theorem artifact_callback_spec (run_id : Nat) (w : ArtifactWorld)
    (e : ApiRunFragmentOutputArtifactEventCreate) (bytes : List Nat)
    (hmatch : e.run_id = run_id)
    (hdec : b64decode e.output_artifact = some bytes) :
    artifactCallbackFn run_id w e =
      some (⟨w.uploads ++ [(e.run_fragment_id, e.output_artifact_name, bytes)]⟩, true)
    ∧ (artifactGCallback run_id).passthrough = false
    ∧ applyEvents [artifactGCallback run_id] w [e] =
        some (⟨w.uploads ++ [(e.run_fragment_id, e.output_artifact_name, bytes)]⟩, []) := by
  have h1 : artifactCallbackFn run_id w e =
      some (⟨w.uploads ++ [(e.run_fragment_id, e.output_artifact_name, bytes)]⟩, true) := by
    simp [artifactCallbackFn, hmatch, hdec]
  refine ⟨h1, rfl, ?_⟩
  have h2 : applyOne [artifactGCallback run_id] w e =
      some (⟨w.uploads ++ [(e.run_fragment_id, e.output_artifact_name, bytes)]⟩, false) := by
    simp only [applyOne, artifactGCallback, h1]
  rw [applyEvents, h2]
  simp [applyEvents]

/-- Witness for C6: scenario S4 of the spec, payload `base64("hello")`
with name `out.bin` for run 7: the upload carries the bytes of `"hello"`
and the event is consumed. -/
theorem artifact_callback_spec_witness :
    artifactCallbackFn 7 ⟨[]⟩ ⟨7, 4, "aGVsbG8=", "out.bin"⟩ =
      some (⟨[(4, "out.bin", [104, 101, 108, 108, 111])]⟩, true)
    ∧ applyEvents [artifactGCallback 7] ⟨[]⟩ [⟨7, 4, "aGVsbG8=", "out.bin"⟩] =
      some (⟨[(4, "out.bin", [104, 101, 108, 108, 111])]⟩, []) := by
  have h := artifact_callback_spec 7 ⟨[]⟩ ⟨7, 4, "aGVsbG8=", "out.bin"⟩
    [104, 101, 108, 108, 111] rfl (by decide)
  exact ⟨h.1, h.2.2⟩

/-! ## Claim C4: the run-registry sweep (lines 466-478 of the source) -/

/-- The per-run data the sweep inspects: `MainRun.fragment_run_state`
(keyed by run-fragment id), the two removable callbacks, and the keys of
`fragment_runner_map` (equal to the `fragment_run_state` keys by
construction of `MainRun`). -/
structure SweepRun where
  run_id : Nat
  fragment_ids : List Nat
  fragment_run_state : List (Nat × RunState)
  run_state_callback : Option Nat
  output_artifact_callback : Option Nat
deriving DecidableEq

/-- The observable actions of a sweep tick, in program order. -/
inductive SweepAction
  | removeStateCallback (run_id : Nat) (cid : Nat)
  | removeArtifactCallback (run_id : Nat) (cid : Nat)
  | stopRunner (run_id : Nat) (rf_id : Nat)
  | popRun (run_id : Nat)
deriving DecidableEq

/-- Whether an action is one of the two callback removals. -/
def SweepAction.isRemoval : SweepAction → Bool
  | .removeStateCallback _ _ => true
  | .removeArtifactCallback _ _ => true
  | _ => false

/-- Whether an action stops a fragment runner handle. -/
def SweepAction.isStop : SweepAction → Bool
  | .stopRunner _ _ => true
  | _ => false

/-- The `for fragment_state in run.fragment_run_state.values(): if
fragment_state < schemas.RunState.COMPLETED: break` test: true iff some
fragment is still below `COMPLETED` (the run is kept). -/
def hasActiveFragment (r : SweepRun) : Bool :=
  r.fragment_run_state.any (fun p => RunState.lt p.2 RunState.COMPLETED)

/-- The teardown of one finished run, in program order: remove the state
callback (if set), remove the artifact callback (if set), stop every
fragment runner (`_stop_fragment_runners`), pop the run from the run map. -/
def teardownActions (r : SweepRun) : List SweepAction :=
  (match r.run_state_callback with
    | some c => [SweepAction.removeStateCallback r.run_id c]
    | none => [])
  ++ (match r.output_artifact_callback with
    | some c => [SweepAction.removeArtifactCallback r.run_id c]
    | none => [])
  ++ r.fragment_ids.map (SweepAction.stopRunner r.run_id)
  ++ [SweepAction.popRun r.run_id]

/-- The sweep at the top of each `_handel_events` tick: every run whose
fragments are all `≥ COMPLETED` is torn down and dropped from the run
map; the rest stay. Returns the new run map and the emitted actions. -/
def sweepRuns : List SweepRun → List SweepRun × List SweepAction
  | [] => ([], [])
  | r :: rest =>
    let (rs, acts) := sweepRuns rest
    if hasActiveFragment r then (r :: rs, acts)
    else (rs, teardownActions r ++ acts)

theorem teardownActions_removal_lt_stop (r : SweepRun) (i j : Nat)
    (a b : SweepAction)
    (hi : (teardownActions r).get? i = some a) (ha : a.isRemoval = true)
    (hj : (teardownActions r).get? j = some b) (hb : b.isStop = true) :
    i < j := by
  set R : List SweepAction :=
    (match r.run_state_callback with
      | some c => [SweepAction.removeStateCallback r.run_id c]
      | none => [])
    ++ (match r.output_artifact_callback with
      | some c => [SweepAction.removeArtifactCallback r.run_id c]
      | none => []) with hR
  set S : List SweepAction :=
    r.fragment_ids.map (SweepAction.stopRunner r.run_id)
    ++ [SweepAction.popRun r.run_id] with hS
  have htd : teardownActions r = R ++ S := by
    rw [teardownActions, hR, hS]
    simp [List.append_assoc]
  have hnotRemoval : ∀ x ∈ S, x.isRemoval = false := by
    intro x hx
    rw [hS] at hx
    rcases List.mem_append.mp hx with hx | hx
    · obtain ⟨f, _, hfx⟩ := List.mem_map.mp hx
      rw [← hfx]; rfl
    · simp only [List.mem_singleton] at hx
      rw [hx]; rfl
  have hnotStop : ∀ x ∈ R, x.isStop = false := by
    intro x hx
    rw [hR] at hx
    rcases List.mem_append.mp hx with hx | hx
    · cases hrc : r.run_state_callback with
      | none => rw [hrc] at hx; simp at hx
      | some c =>
        rw [hrc] at hx
        simp only [List.mem_singleton] at hx
        rw [hx]; rfl
    · cases hrc : r.output_artifact_callback with
      | none => rw [hrc] at hx; simp at hx
      | some c =>
        rw [hrc] at hx
        simp only [List.mem_singleton] at hx
        rw [hx]; rfl
  rw [htd] at hi hj
  have hiR : i < R.length := by
    by_contra hge
    push_neg at hge
    rw [List.get?_append_right hge] at hi
    have := List.get?_mem hi
    have := hnotRemoval a this
    rw [ha] at this
    exact absurd this (by simp)
  have hjR : R.length ≤ j := by
    by_contra hlt
    push_neg at hlt
    rw [List.get?_append hlt] at hj
    have := List.get?_mem hj
    have := hnotStop b this
    rw [hb] at this
    exact absurd this (by simp)
  omega

/-- **C4**: at a pump tick, a run stays in the registry iff at least one of
its fragments is in a state `< COMPLETED`; a run is torn down (its
`popRun` appears in the tick's actions) iff every fragment state is
`≥ COMPLETED`; the tick's actions are exactly the teardowns of the
finished runs in order; and within the teardown of any run every callback
removal precedes every executor stop. -/
theorem registry_sweep_spec (runs : List SweepRun) (rid : Nat)
    (r0 : SweepRun) (i j : Nat) (a b : SweepAction) :
    (sweepRuns runs).1 = runs.filter (fun r => hasActiveFragment r)
    ∧ (sweepRuns runs).2 =
        (runs.filter (fun r => !hasActiveFragment r)).flatMap teardownActions
    ∧ (SweepAction.popRun rid ∈ (sweepRuns runs).2 ↔
        ∃ r ∈ runs, r.run_id = rid ∧ hasActiveFragment r = false)
    ∧ ((teardownActions r0).get? i = some a → a.isRemoval = true →
        (teardownActions r0).get? j = some b → b.isStop = true → i < j) := by
  refine ⟨?_, ?_, ?_, fun h1 h2 h3 h4 =>
    teardownActions_removal_lt_stop r0 i j a b h1 h2 h3 h4⟩
  · induction runs with
    | nil => simp [sweepRuns]
    | cons r rest ih =>
      by_cases h : hasActiveFragment r
      · simp [sweepRuns, h, List.filter_cons, ih]
      · simp [sweepRuns, h, List.filter_cons, ih]
  · induction runs with
    | nil => simp [sweepRuns]
    | cons r rest ih =>
      by_cases h : hasActiveFragment r
      · simp [sweepRuns, h, List.filter_cons, ih]
      · simp [sweepRuns, h, List.filter_cons, ih]
  · induction runs with
    | nil => simp [sweepRuns]
    | cons r rest ih =>
      by_cases h : hasActiveFragment r
      · simp only [sweepRuns, h, if_pos]
        rw [ih]
        constructor
        · rintro ⟨r2, hr2, hrr⟩
          exact ⟨r2, by simp [hr2], hrr⟩
        · rintro ⟨r2, hr2, hrid, hact⟩
          rcases List.mem_cons.mp hr2 with hr2 | hr2
          · subst hr2; rw [h] at hact; cases hact
          · exact ⟨r2, hr2, hrid, hact⟩
      · simp only [sweepRuns, h, if_neg, Bool.not_eq_true]
        simp only [List.mem_append]
        constructor
        · rintro (hmem | hmem)
          · refine ⟨r, by simp, ?_, by simpa using h⟩
            have : SweepAction.popRun rid ∈ teardownActions r := hmem
            rw [teardownActions] at this
            rcases List.mem_append.mp this with hx | hx
            · rcases List.mem_append.mp hx with hx | hx
              · rcases List.mem_append.mp hx with hx | hx
                · cases hrc : r.run_state_callback with
                  | none => rw [hrc] at hx; simp at hx
                  | some c => rw [hrc] at hx; simp at hx
                · cases hrc : r.output_artifact_callback with
                  | none => rw [hrc] at hx; simp at hx
                  | some c => rw [hrc] at hx; simp at hx
              · obtain ⟨f, _, hfx⟩ := List.mem_map.mp hx
                cases hfx
            · simp only [List.mem_singleton, SweepAction.popRun.injEq] at hx
              exact hx.symm
          · obtain ⟨r2, hr2, hrid, hact⟩ := ih.mp hmem
            exact ⟨r2, by simp [hr2], hrid, hact⟩
        · rintro ⟨r2, hr2, hrid, hact⟩
          rcases List.mem_cons.mp hr2 with hr2 | hr2
          · subst hr2
            left
            rw [teardownActions, ← hrid]
            simp
          · right
            exact ih.mpr ⟨r2, hr2, hrid, hact⟩

/-- Witness for C4 at a concrete registry: a run with a `RUNNING` fragment
survives the sweep, a run whose fragments are `COMPLETED`/`ERROR` is
popped, and in its teardown the state-callback removal (index 0) precedes
the first executor stop (index 2). -/
theorem registry_sweep_spec_witness :
    (sweepRuns [⟨5, [1], [(1, RunState.RUNNING)], some 3, none⟩,
        ⟨7, [10, 11], [(10, RunState.COMPLETED), (11, RunState.ERROR)], some 1, some 2⟩]).1 =
      [⟨5, [1], [(1, RunState.RUNNING)], some 3, none⟩]
    ∧ SweepAction.popRun 7 ∈
        (sweepRuns [⟨5, [1], [(1, RunState.RUNNING)], some 3, none⟩,
          ⟨7, [10, 11], [(10, RunState.COMPLETED), (11, RunState.ERROR)], some 1, some 2⟩]).2
    ∧ (0 : Nat) < 2 := by
  have h := registry_sweep_spec
    [⟨5, [1], [(1, RunState.RUNNING)], some 3, none⟩,
     ⟨7, [10, 11], [(10, RunState.COMPLETED), (11, RunState.ERROR)], some 1, some 2⟩]
    7 ⟨7, [10, 11], [(10, RunState.COMPLETED), (11, RunState.ERROR)], some 1, some 2⟩
    0 2 (SweepAction.removeStateCallback 7 1) (SweepAction.stopRunner 7 10)
  refine ⟨?_, ?_, ?_⟩
  · rw [h.1]; decide
  · exact h.2.2.1.mpr
      ⟨⟨7, [10, 11], [(10, RunState.COMPLETED), (11, RunState.ERROR)], some 1, some 2⟩,
        by simp, rfl, by decide⟩
  · exact h.2.2.2 rfl rfl rfl rfl

/-! ## Run-event handling (claims C5, C7, C8, C10)

`MainRunner._handle_run_events`, `_start_run`,
`_send_events_aggregate_updates`, `_start_fragment_runner`,
`_stop_fragment_runners` and `_load_configuration`, over a model state
that logs the externally observable effects. External calls (JSON
parsers, artifact fetches, plugin `start`, `send_events`) are oracles:
boolean fields of the event's environment saying whether the call
succeeds. -/

/-- The per-run registry entry `MainRun`: the keys of
`fragment_runner_map` (in insertion order), `fragment_run_state`, and the
runners' update/create handler tables (one per fragment, in map order). -/
structure MainRun where
  run_id : Nat
  fragments : List Nat
  fragment_run_state : List (Nat × RunState)
  update_handlers : List Table
  create_handlers : List Table
deriving DecidableEq

/-- An installed `BundleUpdatesEventCallback`: its identity, the event id
it aggregates, and its arity `len(run.fragment_runner_map)`. -/
structure AggRecord where
  cid : Nat
  event_id : Nat
  arity : Nat
deriving DecidableEq

/-- The observable state of the `MainRunner`:
`run_map` is `self._run_map` (insertion-ordered);
`live_runners` the started fragment-runner instances
(`self.fragment_runners`), keyed by run-fragment id with executor name;
`executor_msgs` the log of `send_events(bundle, ApiEventRead)` calls to
fragment runners as (run-fragment id, event id);
`aggregators` the log of constructed `BundleUpdatesEventCallback`s;
`run_updates` the log of `rc.update_run(run_id, state, msg)` calls;
`next_cid` a fresh-id counter standing for Python object identity. -/
structure MState where
  run_map : List (Nat × MainRun)
  live_runners : List (Nat × String)
  executor_msgs : List (Nat × Nat)
  aggregators : List AggRecord
  run_updates : List (Nat × RunState)
  next_cid : Nat
deriving DecidableEq

/-- `run_id in self._run_map` / `self._run_map[run_id]`. -/
def lookupRun : List (Nat × MainRun) → Nat → Option MainRun
  | [], _ => none
  | (k, r) :: rest, rid => if k = rid then some r else lookupRun rest rid

/-- Replacing a run entry in the registry (Python mutates it in place). -/
def replaceRun : List (Nat × MainRun) → Nat → MainRun → List (Nat × MainRun)
  | [], _, _ => []
  | (k, r) :: rest, rid, r2 =>
      if k = rid then (k, r2) :: rest else (k, r) :: replaceRun rest rid r2

/-- `MainRunner._send_events_aggregate_updates`: installs a
`BundleUpdatesEventCallback` of arity `len(run.fragment_runner_map)` for
the event into every fragment runner's update-handler table, then sends
the event to every fragment runner of the run as an `ApiEventRead`
bundle. The `none` branch is unreachable: the caller guards
`run_id in self._run_map`. -/
def send_events_aggregate_updates (st : MState) (run_id : Nat)
    (event_id : Nat) : MState :=
  match lookupRun st.run_map run_id with
  | none => st
  | some run =>
    let cid := st.next_cid
    let run2 : MainRun :=
      { run with
        update_handlers :=
          register_callback run.update_handlers "ApiRunEventUpdate" cid }
    { st with
      run_map := replaceRun st.run_map run_id run2,
      next_cid := cid + 1,
      aggregators := st.aggregators ++ [⟨cid, event_id, run.fragments.length⟩],
      executor_msgs :=
        st.executor_msgs ++ run.fragments.map (fun rf => (rf, event_id)) }

/-- Outcome of resolving a fragment's executor tag (lines 289-294). -/
inductive TagResolution
  | ok (name : String)
  | indexError
  | unknownTag
deriving DecidableEq

/-- Tag resolution in `_start_run`: a fragment without a tag gets
`self._available_fragment_executors[0]` (an `IndexError` if there is
none); a tag not among the configured executors is unsupported. -/
def resolveExecutorTag (avail known : List String) (tag : Option String) :
    TagResolution :=
  match tag with
  | none =>
    match avail with
    | [] => TagResolution.indexError
    | a :: _ => TagResolution.ok a
  | some t => if t ∈ known then TagResolution.ok t else TagResolution.unknownTag

/-- One run fragment of a `START_RUN` event together with the oracles for
the external calls made on its behalf: `rf.id`, `rf.fragment.object_id`,
`rf.fragment.fragment_executor_tag`, whether the fragment declares
input-artifact paths, and whether the artifact fetch, the executor
`start` and the dispatch `send_events` succeed. -/
structure FragmentSpec where
  rf_id : Nat
  object_id : Nat
  tag : Option String
  needs_input_artifact : Bool
  fetch_artifact_ok : Bool
  start_ok : Bool
  send_ok : Bool
deriving DecidableEq

/-- The oracle environment of one `START_RUN` event: whether the three
`fromJSON` parses succeed, whether the instantiation declares
input-artifact paths and that fetch succeeds, and the fragments. -/
structure StartRunEnv where
  parse_ok : Bool
  needs_inst_artifact : Bool
  inst_artifact_ok : Bool
  fragments : List FragmentSpec
deriving DecidableEq

/-- `MainRunner._stop_fragment_runners` applied to the partial
`fragment_runner_map` `acc`: the spawned runners are stopped and removed
from `self.fragment_runners`. -/
def stopSpawned (live : List (Nat × String)) (acc : List (Nat × String)) :
    List (Nat × String) :=
  live.filter (fun p => !((acc.map Prod.fst).contains p.1))

/-- The spawn loop of `_start_run` (lines 288-299): resolve each
fragment's tag (an unknown tag stops the already-spawned runners and
raises; a missing default raises an `IndexError`), start the fragment
runner (a failing `start` raises, leaking the runners spawned so far),
and extend the `fragment_runner_map` accumulator. `Except.error st`
models the exception propagating with observable state `st`. -/
def spawnFragments (avail known : List String) :
    MState → List FragmentSpec → List (Nat × String) →
      Except MState (MState × List (Nat × String))
  | st, [], acc => Except.ok (st, acc)
  | st, rf :: rest, acc =>
    match resolveExecutorTag avail known rf.tag with
    | TagResolution.indexError => Except.error st
    | TagResolution.unknownTag =>
        Except.error { st with live_runners := stopSpawned st.live_runners acc }
    | TagResolution.ok name =>
        if rf.start_ok then
          spawnFragments avail known
            { st with live_runners := st.live_runners ++ [(rf.rf_id, name)] }
            rest (acc ++ [(rf.rf_id, name)])
        else Except.error st

/-- The part of `_start_run` before the run is placed in `self._run_map`:
the three parses, the instantiation-artifact fetch, and the spawn loop. -/
def startPhase1 (avail known : List String) (st : MState) (env : StartRunEnv) :
    Except MState (MState × List (Nat × String)) :=
  if !env.parse_ok then Except.error st
  else if env.needs_inst_artifact && !env.inst_artifact_ok then Except.error st
  else spawnFragments avail known st env.fragments []

/-- The sender loop of `_start_run` (lines 322-344): per fragment, fetch
its input artifact if declared (a failing fetch raises, with the run
already in the registry), then create the dispatch task (logged as an
executor message). -/
def buildSenders (event_id : Nat) : MState → List FragmentSpec → Except MState MState
  | st, [] => Except.ok st
  | st, rf :: rest =>
    if rf.needs_input_artifact && !rf.fetch_artifact_ok then Except.error st
    else
      buildSenders event_id
        { st with executor_msgs := st.executor_msgs ++ [(rf.rf_id, event_id)] }
        rest

/-- `MainRunner._start_run`: phase 1 (parse, inst artifact, spawn), then
the `MainRun` is constructed and inserted into `self._run_map`, the
`BundleUpdatesEventCallback` (arity = number of fragments) and the
state/artifact callbacks are installed, and the per-fragment start events
are dispatched; a dispatch failure surfaces at the `gather`. -/
def start_run (avail known : List String) (st : MState) (run_id event_id : Nat)
    (env : StartRunEnv) : Except MState MState :=
  match startPhase1 avail known st env with
  | Except.error st1 => Except.error st1
  | Except.ok (st1, frmap) =>
    let cid := st1.next_cid
    let run0 : MainRun := {
      run_id := run_id,
      fragments := frmap.map Prod.fst,
      fragment_run_state := frmap.map (fun p => (p.1, RunState.SPAWNED)),
      update_handlers :=
        register_callback (frmap.map (fun _ => ([] : Table)))
          "ApiRunEventUpdate" cid,
      create_handlers :=
        register_callback
          (register_callback (frmap.map (fun _ => ([] : Table)))
            "ApiRunFragmentStateEventCreate" (cid + 1))
          "ApiRunFragmentOutputArtifactEventCreate" (cid + 2) }
    let st2 : MState := { st1 with
      run_map := st1.run_map ++ [(run_id, run0)],
      next_cid := cid + 3,
      aggregators := st1.aggregators ++ [⟨cid, event_id, frmap.length⟩] }
    match buildSenders event_id st2 env.fragments with
    | Except.error st3 => Except.error st3
    | Except.ok st3 =>
      if env.fragments.all (fun rf => rf.send_ok) then Except.ok st3
      else Except.error st3

/-- `schemas.RunEventType`. -/
inductive RunEventType
  | KILL
  | SIMULATION_STATUS
  | START_RUN
deriving DecidableEq

/-- An `ApiRunEventRead` as far as `_handle_run_events` inspects it, with
the `START_RUN` payload replaced by its oracle environment. -/
structure RunEvent where
  id : Nat
  run_id : Nat
  run_event_type : RunEventType
  start_env : StartRunEnv
deriving DecidableEq

/-- The `ApiRunEventUpdate` stub built per event (id, runner-implicit,
run id) with the status assigned by the handler. -/
structure ApiRunEventUpdate where
  id : Nat
  run_id : Nat
  event_status : ApiEventStatus
deriving DecidableEq

/-- One iteration of the loop in `MainRunner._handle_run_events`: `KILL`
and `SIMULATION_STATUS` for an unknown run mark the update `CANCELLED`;
for a known run they install an aggregator and broadcast; `START_RUN` for
a running id marks the update `CANCELLED`; otherwise `_start_run` is
attempted and a failure reports `update_run(run_id, RunState.ERROR, "")`
and marks the update `ERROR`. -/
def handle_run_event (avail known : List String) (st : MState) (ev : RunEvent)
    (updates : List ApiRunEventUpdate) : MState × List ApiRunEventUpdate :=
  match ev.run_event_type with
  | RunEventType.KILL =>
    match lookupRun st.run_map ev.run_id with
    | none => (st, updates ++ [⟨ev.id, ev.run_id, ApiEventStatus.CANCELLED⟩])
    | some _ => (send_events_aggregate_updates st ev.run_id ev.id, updates)
  | RunEventType.SIMULATION_STATUS =>
    match lookupRun st.run_map ev.run_id with
    | none => (st, updates ++ [⟨ev.id, ev.run_id, ApiEventStatus.CANCELLED⟩])
    | some _ => (send_events_aggregate_updates st ev.run_id ev.id, updates)
  | RunEventType.START_RUN =>
    match lookupRun st.run_map ev.run_id with
    | some _ => (st, updates ++ [⟨ev.id, ev.run_id, ApiEventStatus.CANCELLED⟩])
    | none =>
      match start_run avail known st ev.run_id ev.id ev.start_env with
      | Except.ok st2 => (st2, updates)
      | Except.error st2 =>
        ({ st2 with run_updates := st2.run_updates ++ [(ev.run_id, RunState.ERROR)] },
         updates ++ [⟨ev.id, ev.run_id, ApiEventStatus.ERROR⟩])

/-! ## `MainRunner._load_configuration` (claim C8) -/

/-- One executor's data mapping in the YAML file, with oracles for the
shape checks and the plugin load: whether the value is a dict, whether it
has a `plugin` key and that plugin's path, whether a `settings` key is
present and is a dict, and whether `plugin_loader.load_plugin` succeeds. -/
structure ExecutorEntryData where
  is_dict : Bool
  has_plugin : Bool
  plugin : String
  settings_present : Bool
  settings_is_dict : Bool
  plugin_loads : Bool
deriving DecidableEq

/-- One element of the `fragment_executors` list: whether it is a dict,
and its key/value items in insertion order. -/
structure ExecutorEntry where
  is_dict : Bool
  items : List (String × ExecutorEntryData)
deriving DecidableEq

/-- The executor name of a well-formed (single-key) entry. -/
def entryName (e : ExecutorEntry) : Option String :=
  match e.items with
  | [(n, _)] => some n
  | _ => none

/-- The executor loop of `MainRunner._load_configuration`, accumulating
`self._available_fragment_executors`: each entry must be a dict with
exactly one key, its data a dict with a `plugin` key and dict-shaped
`settings` if present, its plugin must load, and a duplicate executor
name is a `KeyError`. Returns the available-executors list, which
preserves the file's insertion order. -/
def load_configuration : List ExecutorEntry → List String → Except Unit (List String)
  | [], names => Except.ok names
  | e :: rest, names =>
    if !e.is_dict then Except.error ()
    else
      match e.items with
      | [(name, data)] =>
        if !data.is_dict then Except.error ()
        else if !data.has_plugin then Except.error ()
        else if data.settings_present && !data.settings_is_dict then Except.error ()
        else if !data.plugin_loads then Except.error ()
        else if name ∈ names then Except.error ()
        else load_configuration rest (names ++ [name])
      | _ => Except.error ()

/-! ## Claim C10: duplicate `START_RUN` -/

/-- **C10**: a `START_RUN` event whose `run_id` is already in the run
registry starts nothing and changes nothing — the state (registry
included) is returned untouched — and the event's update is marked
`CANCELLED` (not `ERROR`) in the batch for the backend. -/
theorem start_run_duplicate_cancelled (avail known : List String) (st : MState)
    (ev : RunEvent) (updates : List ApiRunEventUpdate) (run : MainRun)
    (hty : ev.run_event_type = RunEventType.START_RUN)
    (hdup : lookupRun st.run_map ev.run_id = some run) :
    handle_run_event avail known st ev updates =
      (st, updates ++ [⟨ev.id, ev.run_id, ApiEventStatus.CANCELLED⟩]) := by
  simp [handle_run_event, hty, hdup]

/-- Witness for C10: a duplicate `START_RUN` for run 5 leaves the state
unchanged and yields one `CANCELLED` update. -/
theorem start_run_duplicate_cancelled_witness :
    handle_run_event ["local"] ["local"]
        ⟨[(5, ⟨5, [], [], [], []⟩)], [], [], [], [], 0⟩
        ⟨1, 5, RunEventType.START_RUN, ⟨true, false, true, []⟩⟩ [] =
      (⟨[(5, ⟨5, [], [], [], []⟩)], [], [], [], [], 0⟩,
        [⟨1, 5, ApiEventStatus.CANCELLED⟩]) :=
  start_run_duplicate_cancelled ["local"] ["local"]
    ⟨[(5, ⟨5, [], [], [], []⟩)], [], [], [], [], 0⟩
    ⟨1, 5, RunEventType.START_RUN, ⟨true, false, true, []⟩⟩ []
    ⟨5, [], [], [], []⟩ rfl rfl

/-! ## Claim C7: `KILL` / `SIMULATION_STATUS` routing -/

theorem mem_setAdd (s : CallbackSet) (cid : Nat) : cid ∈ setAdd s cid := by
  by_cases h : cid ∈ s
  · simp [setAdd, h]
  · simp [setAdd, h]

theorem setMem_tableRegister (t : Table) (ety : String) (cid : Nat) :
    setMem (tableRegister t ety cid) ety cid = true := by
  induction t with
  | nil => simp [tableRegister, setMem, tableFind, mem_setAdd]
  | cons p rest ih =>
    obtain ⟨k, s⟩ := p
    by_cases hk : k = ety
    · subst hk
      simp [tableRegister, setMem, tableFind, mem_setAdd]
    · simpa [tableRegister, hk, setMem, tableFind] using ih

/-- **C7**: a `KILL` or `SIMULATION_STATUS` event for a `run_id` not in the
run registry marks its update `CANCELLED` in the backend batch and sends
nothing to any fragment executor (the state is untouched); for a known
run it instead installs a `BundleUpdatesEventCallback` for the event —
with arity the number of the run's fragments, registered in every
fragment runner's update-handler table — and broadcasts the event to
every fragment runner of the run. -/
theorem kill_status_routing_spec (avail known : List String) (st : MState)
    (ev : RunEvent) (updates : List ApiRunEventUpdate) (run : MainRun)
    (hty : ev.run_event_type = RunEventType.KILL
      ∨ ev.run_event_type = RunEventType.SIMULATION_STATUS) :
    (lookupRun st.run_map ev.run_id = none →
      handle_run_event avail known st ev updates =
        (st, updates ++ [⟨ev.id, ev.run_id, ApiEventStatus.CANCELLED⟩]))
    ∧ (lookupRun st.run_map ev.run_id = some run →
      handle_run_event avail known st ev updates =
        (send_events_aggregate_updates st ev.run_id ev.id, updates)
      ∧ (send_events_aggregate_updates st ev.run_id ev.id).executor_msgs =
          st.executor_msgs ++ run.fragments.map (fun rf => (rf, ev.id))
      ∧ (send_events_aggregate_updates st ev.run_id ev.id).aggregators =
          st.aggregators ++ [⟨st.next_cid, ev.id, run.fragments.length⟩]
      ∧ ∀ t ∈ register_callback run.update_handlers "ApiRunEventUpdate" st.next_cid,
          setMem t "ApiRunEventUpdate" st.next_cid = true) := by
  constructor
  · intro hnone
    rcases hty with hty | hty <;> simp [handle_run_event, hty, hnone]
  · intro hsome
    refine ⟨?_, ?_, ?_, ?_⟩
    · rcases hty with hty | hty <;> simp [handle_run_event, hty, hsome]
    · simp [send_events_aggregate_updates, hsome]
    · simp [send_events_aggregate_updates, hsome]
    · intro t ht
      obtain ⟨t0, _, ht0⟩ := List.mem_map.mp ht
      rw [← ht0]
      exact setMem_tableRegister t0 "ApiRunEventUpdate" st.next_cid

/-- Witness for C7: scenario S3 (a `KILL` for unknown run 999 yields one
`CANCELLED` update and no executor traffic) and a `KILL` for a known
two-fragment run (broadcast to both fragments, aggregator of arity 2). -/
theorem kill_status_routing_spec_witness :
    handle_run_event [] [] ⟨[], [], [], [], [], 0⟩
        ⟨1, 999, RunEventType.KILL, ⟨true, false, true, []⟩⟩ [] =
      (⟨[], [], [], [], [], 0⟩, [⟨1, 999, ApiEventStatus.CANCELLED⟩])
    ∧ (send_events_aggregate_updates
        ⟨[(7, ⟨7, [10, 11], [(10, RunState.RUNNING), (11, RunState.RUNNING)],
          [[], []], [[], []]⟩)], [], [], [], [], 3⟩ 7 2).executor_msgs =
      [(10, 2), (11, 2)]
    ∧ (send_events_aggregate_updates
        ⟨[(7, ⟨7, [10, 11], [(10, RunState.RUNNING), (11, RunState.RUNNING)],
          [[], []], [[], []]⟩)], [], [], [], [], 3⟩ 7 2).aggregators =
      [⟨3, 2, 2⟩] := by
  refine ⟨?_, ?_, ?_⟩
  · exact (kill_status_routing_spec [] [] ⟨[], [], [], [], [], 0⟩
      ⟨1, 999, RunEventType.KILL, ⟨true, false, true, []⟩⟩ []
      ⟨0, [], [], [], []⟩ (Or.inl rfl)).1 rfl
  · exact ((kill_status_routing_spec [] []
      ⟨[(7, ⟨7, [10, 11], [(10, RunState.RUNNING), (11, RunState.RUNNING)],
        [[], []], [[], []]⟩)], [], [], [], [], 3⟩
      ⟨2, 7, RunEventType.KILL, ⟨true, false, true, []⟩⟩ []
      ⟨7, [10, 11], [(10, RunState.RUNNING), (11, RunState.RUNNING)],
        [[], []], [[], []]⟩ (Or.inl rfl)).2 rfl).2.1
  · exact ((kill_status_routing_spec [] []
      ⟨[(7, ⟨7, [10, 11], [(10, RunState.RUNNING), (11, RunState.RUNNING)],
        [[], []], [[], []]⟩)], [], [], [], [], 3⟩
      ⟨2, 7, RunEventType.KILL, ⟨true, false, true, []⟩⟩ []
      ⟨7, [10, 11], [(10, RunState.RUNNING), (11, RunState.RUNNING)],
        [[], []], [[], []]⟩ (Or.inl rfl)).2 rfl).2.2.1

/-! ## Claim C5: `START_RUN` failure handling -/

theorem spawnFragments_error_run_map (avail known : List String) :
    ∀ (frs : List FragmentSpec) (st : MState) (acc : List (Nat × String))
      (st1 : MState),
      spawnFragments avail known st frs acc = Except.error st1 →
      st1.run_map = st.run_map := by
  intro frs
  induction frs with
  | nil =>
    intro st acc st1 h
    simp [spawnFragments] at h
  | cons rf rest ih =>
    intro st acc st1 h
    rw [spawnFragments] at h
    cases hres : resolveExecutorTag avail known rf.tag with
    | indexError =>
      rw [hres] at h
      cases h
      rfl
    | unknownTag =>
      rw [hres] at h
      cases h
      rfl
    | ok name =>
      rw [hres] at h
      dsimp only [] at h
      by_cases hok : rf.start_ok
      · rw [if_pos hok] at h
        exact ih { st with live_runners := st.live_runners ++ [(rf.rf_id, name)] }
          (acc ++ [(rf.rf_id, name)]) st1 h
      · rw [if_neg hok] at h
        cases h
        rfl

theorem startPhase1_error_run_map (avail known : List String) (st : MState)
    (env : StartRunEnv) (st1 : MState)
    (h : startPhase1 avail known st env = Except.error st1) :
    st1.run_map = st.run_map := by
  rw [startPhase1] at h
  by_cases hp : env.parse_ok
  · rw [if_neg (by simp [hp])] at h
    by_cases hi : env.needs_inst_artifact && !env.inst_artifact_ok
    · rw [if_pos hi] at h
      cases h
      rfl
    · rw [if_neg hi] at h
      exact spawnFragments_error_run_map avail known env.fragments st [] st1 h
  · rw [if_pos (by simp [hp])] at h
    cases h
    rfl

/-- C5 counterexample: a `START_RUN` for a fresh run 5 whose only
fragment's input-artifact fetch fails (an artifact-fetch error). The
handler does mark the update `ERROR`, but the run stays in the run
registry, because `_start_run` puts the run into `self._run_map` before
the per-fragment artifact fetches and dispatches and the failure path
never removes it — refuting "the run is not retained in the run registry
after the failure". -/
theorem start_run_failure_retained_counterexample :
    (handle_run_event ["local"] ["local"] ⟨[], [], [], [], [], 0⟩
        ⟨1, 5, RunEventType.START_RUN,
          ⟨true, false, true, [⟨10, 0, some "local", true, false, true, true⟩]⟩⟩
        []).2 = [⟨1, 5, ApiEventStatus.ERROR⟩]
    ∧ (lookupRun (handle_run_event ["local"] ["local"] ⟨[], [], [], [], [], 0⟩
        ⟨1, 5, RunEventType.START_RUN,
          ⟨true, false, true, [⟨10, 0, some "local", true, false, true, true⟩]⟩⟩
        []).1.run_map 5).isSome = true := by
  constructor <;> rfl

/-- **C5 (amended)**: for every `START_RUN` event whose handling raises,
the runner reports `RunState.ERROR` for the run to the backend via
`update_run` and marks the start event's update `ERROR`; the run is not
retained in the run registry when the error is raised before the run is
inserted (parse error, instantiation-artifact-fetch error, executor start
error, or unknown executor tag — all of phase 1). A per-fragment
input-artifact-fetch or dispatch error, which is raised after insertion,
leaves the run in the registry. -/
theorem start_run_failure_spec (avail known : List String) (st : MState)
    (ev : RunEvent) (updates : List ApiRunEventUpdate) (st1 : MState)
    (hty : ev.run_event_type = RunEventType.START_RUN)
    (hnew : lookupRun st.run_map ev.run_id = none) :
    (start_run avail known st ev.run_id ev.id ev.start_env = Except.error st1 →
      handle_run_event avail known st ev updates =
        ({ st1 with run_updates := st1.run_updates ++ [(ev.run_id, RunState.ERROR)] },
         updates ++ [⟨ev.id, ev.run_id, ApiEventStatus.ERROR⟩]))
    ∧ (startPhase1 avail known st ev.start_env = Except.error st1 →
      start_run avail known st ev.run_id ev.id ev.start_env = Except.error st1
      ∧ lookupRun st1.run_map ev.run_id = none) := by
  constructor
  · intro herr
    simp [handle_run_event, hty, hnew, herr]
  · intro herr
    refine ⟨by simp [start_run, herr], ?_⟩
    rw [startPhase1_error_run_map avail known st ev.start_env st1 herr]
    exact hnew

/-- Witness for C5's amended theorem: scenario S2, a fragment tagged with
the unconfigured executor `docker` — a phase-1 failure: the update is
marked `ERROR`, `update_run(5, ERROR, "")` is sent, and run 5 is absent
from the registry. -/
theorem start_run_failure_spec_witness :
    handle_run_event ["local"] ["local"] ⟨[], [], [], [], [], 0⟩
        ⟨1, 5, RunEventType.START_RUN,
          ⟨true, false, true, [⟨10, 0, some "docker", false, true, true, true⟩]⟩⟩
        [] =
      (⟨[], [], [], [], [(5, RunState.ERROR)], 0⟩, [⟨1, 5, ApiEventStatus.ERROR⟩])
    ∧ lookupRun (⟨[], [], [], [], [], 0⟩ : MState).run_map 5 = none := by
  have h := start_run_failure_spec ["local"] ["local"] ⟨[], [], [], [], [], 0⟩
    ⟨1, 5, RunEventType.START_RUN,
      ⟨true, false, true, [⟨10, 0, some "docker", false, true, true, true⟩]⟩⟩
    [] ⟨[], [], [], [], [], 0⟩ rfl rfl
  exact ⟨h.1 rfl, (h.2 rfl).2⟩

/-! ## Claim C8: default executor-tag selection -/

theorem load_configuration_names (cfg : List ExecutorEntry) :
    ∀ (names names2 : List String),
      load_configuration cfg names = Except.ok names2 →
      names2.map some = names.map some ++ cfg.map entryName := by
  induction cfg with
  | nil =>
    intro names names2 h
    simp only [load_configuration] at h
    cases h
    simp
  | cons e rest ih =>
    intro names names2 h
    rw [load_configuration] at h
    by_cases hd : e.is_dict
    · rw [if_neg (by simp [hd])] at h
      cases hitems : e.items with
      | nil => rw [hitems] at h; cases h
      | cons p tail =>
        obtain ⟨nm, data⟩ := p
        cases htail : tail with
        | cons q tail2 => rw [hitems, htail] at h; cases h
        | nil =>
          subst htail
          rw [hitems] at h
          dsimp only [] at h
          by_cases h1 : data.is_dict
          rotate_left
          · rw [if_pos (by simp [h1])] at h; cases h
          · rw [if_neg (by simp [h1])] at h
            by_cases h2 : data.has_plugin
            rotate_left
            · rw [if_pos (by simp [h2])] at h; cases h
            · rw [if_neg (by simp [h2])] at h
              by_cases h3 : data.settings_present ∧ ¬ data.settings_is_dict
              · rw [if_pos (by simp [h3.1, h3.2])] at h; cases h
              · rw [if_neg (by
                  simp only [Bool.and_eq_true, Bool.not_eq_true']
                  rintro ⟨ha, hb⟩
                  exact h3 ⟨ha, by simp [hb]⟩)] at h
                by_cases h4 : data.plugin_loads
                rotate_left
                · rw [if_pos (by simp [h4])] at h; cases h
                · rw [if_neg (by simp [h4])] at h
                  by_cases h5 : nm ∈ names
                  · rw [if_pos h5] at h; cases h
                  · rw [if_neg h5] at h
                    have := ih (names ++ [nm]) names2 h
                    rw [this]
                    simp [entryName, hitems]
    · rw [if_pos (by simp [hd])] at h
      cases h

/-- **C8**: a successfully loaded configuration yields an
available-executors list equal to the executor names in the file's list
order, and a fragment whose `fragment_executor_tag` is `None` resolves to
its first element — the first configured executor in file order. -/
theorem default_tag_selection_spec (cfg : List ExecutorEntry)
    (known names : List String) (e0 : ExecutorEntry) (n : String)
    (hload : load_configuration cfg [] = Except.ok names)
    (hhead : cfg.head? = some e0)
    (hname : entryName e0 = some n) :
    resolveExecutorTag names known none = TagResolution.ok n
    ∧ names.map some = cfg.map entryName := by
  have hnames := load_configuration_names cfg [] names hload
  simp only [List.map_nil, List.nil_append] at hnames
  refine ⟨?_, hnames⟩
  cases cfg with
  | nil => simp at hhead
  | cons e1 rest =>
    simp only [List.head?_cons, Option.some.injEq] at hhead
    subst hhead
    cases names with
    | nil => simp at hnames
    | cons a as =>
      simp only [List.map_cons, List.cons.injEq] at hnames
      have : some a = some n := by rw [hnames.1, hname]
      cases this
      rfl

/-- Witness for C8: a two-executor configuration file loads to
`["local", "docker"]` and an untagged fragment selects `local`. -/
theorem default_tag_selection_spec_witness :
    resolveExecutorTag ["local", "docker"] ["local", "docker"] none =
      TagResolution.ok "local"
    ∧ (["local", "docker"] : List String).map some =
        [⟨true, [("local", ⟨true, true, "p", false, true, true⟩)]⟩,
         ⟨true, [("docker", ⟨true, true, "p", false, true, true⟩)]⟩].map entryName :=
  default_tag_selection_spec
    [⟨true, [("local", ⟨true, true, "p", false, true, true⟩)]⟩,
     ⟨true, [("docker", ⟨true, true, "p", false, true, true⟩)]⟩]
    ["local", "docker"] ["local", "docker"]
    ⟨true, [("local", ⟨true, true, "p", false, true, true⟩)]⟩ "local"
    rfl rfl rfl

end MainRunnerModel
